import Mathlib

/-! Clock / alarm widget (`content.js`).

A shallow embedding of the content script of the browser clock extension:
the alarm controller (`updateTime`, `setAlarm`, `triggerAlarm`,
`dismissAlarm`) and the drag controller (`makeDraggable` with its three
closures), followed by the properties proved about them.

JavaScript statements are run in `ExceptT JsError (StateM Page)`: what a
statement wrote before an exception was thrown stays written, as in the
language.
-/

namespace ClockExt

/-! ## Host values -/

/-- An exception value thrown by a host call. -/
structure JsError where
  message : String
deriving DecidableEq, Repr

/-- What `new Date()` hands to `updateTime`: the three getters the alarm check
reads and the text `toLocaleTimeString('en-US', { hour12: false })` gives. -/
structure JsDate where
  hours : Nat
  minutes : Nat
  seconds : Nat
  localeTime : String
deriving DecidableEq, Repr

/-- The host calls inside the `try` block of `triggerAlarm`, in source order
(lines 109 to 118). -/
inductive AudioStep where
  | newContext
  | createOscillator
  | createGain
  | connectGain
  | connectDestination
  | setType
  | setFrequency
  | start
  | ramp
  | stop
deriving DecidableEq, Repr

/-- The audio subsystem seen by one call of `triggerAlarm`: neither
`window.AudioContext` nor `window.webkitAudioContext` exists, every call
succeeds, or the named call throws. -/
inductive AudioEnv where
  | absent
  | works
  | throwsAt (step : AudioStep)
deriving DecidableEq, Repr

/-! ## Page state -/

/-- The module variables of `content.js` and the parts of the DOM its alarm
functions read and write. `triggerCalls` and `tonesStarted` are counters of
what happened (calls of `triggerAlarm`, calls of `osc.start()`); no code
reads them. -/
structure Page where
  /-- Module variable `alarmTime` (`none` is `null`). -/
  alarmTime : Option String
  /-- Module variable `alarmTriggered`. -/
  alarmTriggered : Bool
  /-- Whether the container carries the class `alarm-ringing`. -/
  ringing : Bool
  /-- Text of `#my-extension-alarm-status`. -/
  statusText : String
  /-- Colour of `#my-extension-alarm-status`. -/
  statusColor : String
  /-- Text of `#my-extension-clock-time`. -/
  display : String
  /-- Whether `dismissAlarm` is in the container's click listener list. The
  list holds a listener at most once: `addEventListener` does nothing when the
  same type, callback and capture flag are already there. -/
  dismissListener : Bool
  /-- Lines written by `console.error`. -/
  console : List String
  /-- Number of calls of `triggerAlarm` so far. -/
  triggerCalls : Nat
  /-- Number of calls of `osc.start()` so far. -/
  tonesStarted : Nat
deriving DecidableEq, Repr

/-- The page right after `createClockUI` built the widget (lines 6 to 15 and
30 to 31), before the first tick. -/
def Page.initial : Page where
  alarmTime := none
  alarmTriggered := false
  ringing := false
  statusText := "No alarm set"
  statusColor := ""
  display := "--:--:--"
  dismissListener := false
  console := []
  triggerCalls := 0
  tonesStarted := 0

/-- Statements of the script. -/
abbrev Js (α : Type) : Type := ExceptT JsError (StateM Page) α

/-- Run a statement from a page: how it ended and the page it left. -/
def Js.exec {α : Type} (x : Js α) (p : Page) : Except JsError α × Page :=
  (ExceptT.run x).run p

/-! ## String helpers of the language -/

/-- The method `String.prototype.padStart` with a one-character pad string. -/
def padStart (s : String) (targetLength : Nat) (padChar : Char) : String :=
  String.mk (List.replicate (targetLength - s.length) padChar) ++ s

/-- The expression `String(n).padStart(2, '0')` for a non-negative integer. -/
def pad2 (n : Nat) : String :=
  padStart (Nat.repr n) 2 '0'

/-- The value of `currentTimeStr` (line 53). -/
def currentTimeStr (now : JsDate) : String :=
  pad2 now.hours ++ ":" ++ pad2 now.minutes

/-- The value of `currentTimeStrWithSeconds` (line 54). -/
def currentTimeStrWithSeconds (now : JsDate) : String :=
  pad2 now.hours ++ ":" ++ pad2 now.minutes ++ ":" ++ pad2 now.seconds

/-- Truthiness of a string-or-null value: `null` and the empty string are
falsy. -/
def truthy : Option String → Bool
  | none => false
  | some v => v != ""

/-! ## Alarm controller -/

/-- One host call of the audio block: throws when the environment says so. -/
def audioCall (env : AudioEnv) (step : AudioStep) : Js Unit :=
  match env with
  | .throwsAt k => if k = step then throw ⟨"audio call failed"⟩ else pure ()
  | _ => pure ()

/-- The body of the `try` block of `triggerAlarm` (lines 107 to 119). -/
def playBeep (env : AudioEnv) : Js Unit := do
  if env ≠ .absent then
    audioCall env .newContext
    audioCall env .createOscillator
    audioCall env .createGain
    audioCall env .connectGain
    audioCall env .connectDestination
    audioCall env .setType
    audioCall env .setFrequency
    audioCall env .start
    modify fun p => { p with tonesStarted := p.tonesStarted + 1 }
    audioCall env .ramp
    audioCall env .stop

/-- The function `triggerAlarm` (lines 85 to 126). -/
def triggerAlarm (env : AudioEnv) : Js Unit := do
  modify fun p => { p with triggerCalls := p.triggerCalls + 1 }
  modify fun p => { p with alarmTriggered := true }
  modify fun p => { p with ringing := true }
  modify fun p => { p with statusText := "ALARM! Click to dismiss" }
  modify fun p => { p with statusColor := "#ff5252" }
  tryCatch (playBeep env) fun e =>
    modify fun p => { p with console := p.console ++ ["Audio play failed " ++ e.message] }
  modify fun p => { p with dismissListener := true }

/-- The function `updateTime` (lines 34 to 61). -/
def updateTime (now : JsDate) (env : AudioEnv) : Js Unit := do
  modify fun p => { p with display := now.localeTime }
  let p ← get
  if truthy p.alarmTime && !p.alarmTriggered then
    if p.alarmTime = some (currentTimeStr now)
        || p.alarmTime = some (currentTimeStrWithSeconds now) then
      triggerAlarm env

/-- The function `setAlarm` (lines 63 to 83), with `input.value` as argument.
The module variable `audio` is never assigned, so the branch at line 74 is not
taken. -/
def setAlarm (inputValue : String) : Js Unit := do
  if inputValue != "" then
    modify fun p => { p with alarmTime := some inputValue }
    modify fun p => { p with alarmTriggered := false }
    modify fun p => { p with statusText := "Alarm set for " ++ inputValue }
    modify fun p => { p with statusColor := "#4caf50" }
    modify fun p => { p with ringing := false }
  else
    modify fun p => { p with statusText := "Please select a time" }
    modify fun p => { p with statusColor := "#ff9800" }

/-- The function `dismissAlarm` (lines 128 to 135). -/
def dismissAlarm : Js Unit := do
  modify fun p => { p with ringing := false }
  modify fun p => { p with statusText := "Alarm dismissed" }
  modify fun p => { p with statusColor := "#aaa" }
  modify fun p => { p with alarmTime := none }

/-- A click event reaching the container: a listener registered with
`{ once: true }` is taken off the list and then called. -/
def containerClick : Js Unit := do
  let p ← get
  if p.dismissListener then
    modify fun p => { p with dismissListener := false }
    dismissAlarm

/-- What the host can do to the alarm controller. -/
inductive Event where
  /-- The interval timer calls `updateTime`. -/
  | tick (now : JsDate) (env : AudioEnv)
  /-- The click listener of the button calls `setAlarm`. -/
  | setAlarm (inputValue : String)
  /-- A click event is dispatched on the container. -/
  | click
  /-- A direct call of `dismissAlarm`. -/
  | dismiss
deriving DecidableEq, Repr

/-- The handler an event runs. -/
def Event.handler : Event → Js Unit
  | .tick now env => updateTime now env
  | .setAlarm v => ClockExt.setAlarm v
  | .click => containerClick
  | .dismiss => dismissAlarm

/-- The event loop delivers one event: the page is what the handler left,
however the handler ended. -/
def deliver (p : Page) (e : Event) : Page :=
  (e.handler.exec p).2

/-- The event loop delivers a sequence of events in order. -/
def deliverAll (p : Page) (es : List Event) : Page :=
  es.foldl deliver p

/-- Whether a tick at `now` meets the target `a` (the test of line 57). -/
def matchesTarget (a : String) (now : JsDate) : Prop :=
  a = currentTimeStr now ∨ a = currentTimeStrWithSeconds now

instance (a : String) (now : JsDate) : Decidable (matchesTarget a now) := by
  unfold matchesTarget; infer_instance

/-- Timer ticks as events: each tick has its date and its audio subsystem. -/
def ticks (ts : List (JsDate × AudioEnv)) : List Event :=
  ts.map fun t => Event.tick t.1 t.2

/-- The test of lines 43 and 57 on a page. -/
def alarmDue (p : Page) (now : JsDate) : Bool :=
  (truthy p.alarmTime && !p.alarmTriggered) &&
    (decide (p.alarmTime = some (currentTimeStr now))
      || decide (p.alarmTime = some (currentTimeStrWithSeconds now)))

/-! ## Alarm states, as the specification names them -/

/-- Idle: no alarm target. -/
def Idle (p : Page) : Prop :=
  p.alarmTime = none

/-- Armed with target `a`: the target is set and has not fired. -/
def Armed (p : Page) (a : String) : Prop :=
  p.alarmTime = some a ∧ p.alarmTriggered = false

/-- Ringing: a target is set and has fired. -/
def Ringing (p : Page) : Prop :=
  p.alarmTime ≠ none ∧ p.alarmTriggered = true

instance (p : Page) : Decidable (Idle p) := by
  unfold Idle; infer_instance

instance (p : Page) (a : String) : Decidable (Armed p a) := by
  unfold Armed; infer_instance

instance (p : Page) : Decidable (Ringing p) := by
  unfold Ringing; infer_instance

/-- The ringing visual is on exactly in the Ringing state. -/
def VisualInv (p : Page) : Prop :=
  p.ringing = true ↔ Ringing p

/-! ## Drag controller -/

/-- The exponent `e` of the spacing `2 ^ e` between neighbouring doubles at a
magnitude `n` with `2 ^ 53 ≤ n`: the least `e`, searched upward from the one
given, with `n < 2 ^ (53 + e)`. -/
def spacingExponent (n : Nat) : Nat → Nat → Nat
  | 0, e => e
  | fuel + 1, e => if n < 2 ^ (53 + e) then e else spacingExponent n fuel (e + 1)

/-- The Number an arithmetic operation yields when its exact result is the
integer `z`: the nearest double, the one with the even mantissa at a tie.
Up to magnitude `2 ^ 53` that is `z` itself; above, doubles are the multiples
of `2 ^ e` in each range `2 ^ (52 + e) ≤ n < 2 ^ (53 + e)`, for `e` from 1 to
971. Magnitudes from `2 ^ 1024 - 2 ^ 970` on, which the language rounds to
`Infinity`, are not covered. -/
def toDouble (z : Int) : Int :=
  if z.natAbs ≤ 2 ^ 53 then z
  else
    let e := spacingExponent z.natAbs 971 1
    let q := z.natAbs / 2 ^ e
    let r := z.natAbs % 2 ^ e
    let m := if 2 ^ e < 2 * r ∨ (2 * r = 2 ^ e ∧ q % 2 = 1) then q + 1 else q
    Int.sign z * ((m * 2 ^ e : Nat) : Int)

/-- An integer result that a double holds exactly whatever the operands:
magnitude at most `2 ^ 53`. -/
def Exact (z : Int) : Prop :=
  z.natAbs ≤ 2 ^ 53

instance (z : Int) : Decidable (Exact z) := by
  unfold Exact; infer_instance

/-- The closure variables of `makeDraggable`, the element's position and the
two document handlers the closures install. The numbers are integer-valued
doubles, held as the integers they are. `top` and `left` stand for both
`element.style.top` / `left` and `element.offsetTop` / `offsetLeft`: the
offset read is the position last written. -/
structure DragState where
  pos1 : Int
  pos2 : Int
  pos3 : Int
  pos4 : Int
  top : Int
  left : Int
  /-- Whether `element.style.right` is `'auto'`. -/
  rightAuto : Bool
  /-- Whether `document.onmouseup` is `closeDragElement`. -/
  onmouseup : Bool
  /-- Whether `document.onmousemove` is `elementDrag`. -/
  onmousemove : Bool
deriving DecidableEq, Repr

/-- The state `makeDraggable` leaves for an element at `(left, top)`
(line 139). -/
def makeDraggable (left top : Int) : DragState where
  pos1 := 0
  pos2 := 0
  pos3 := 0
  pos4 := 0
  top := top
  left := left
  rightAuto := false
  onmouseup := false
  onmousemove := false

/-- The closure `dragMouseDown` (lines 143 to 152). -/
def dragMouseDown (tagName : String) (clientX clientY : Int) (d : DragState) : DragState :=
  if ["INPUT", "BUTTON"].contains tagName then d
  else
    let d := { d with pos3 := clientX }
    let d := { d with pos4 := clientY }
    let d := { d with onmouseup := true }
    { d with onmousemove := true }

/-- The closure `elementDrag` (lines 154 to 164). Each of the four subtractions
is a double subtraction. -/
def elementDrag (clientX clientY : Int) (d : DragState) : DragState :=
  let d := { d with pos1 := toDouble (d.pos3 - clientX) }
  let d := { d with pos2 := toDouble (d.pos4 - clientY) }
  let d := { d with pos3 := clientX }
  let d := { d with pos4 := clientY }
  let d := { d with top := toDouble (d.top - d.pos2) }
  let d := { d with left := toDouble (d.left - d.pos1) }
  { d with rightAuto := true }

/-- The closure `closeDragElement` (lines 166 to 169). -/
def closeDragElement (d : DragState) : DragState :=
  let d := { d with onmouseup := false }
  { d with onmousemove := false }

/-- Mouse events the host sends: `mousedown` on the element, `mousemove` and
`mouseup` on the document. -/
inductive MouseEvent where
  | down (tagName : String) (clientX clientY : Int)
  | move (clientX clientY : Int)
  | up
deriving DecidableEq, Repr

/-- The host delivers a mouse event: `element.onmousedown` is always
`dragMouseDown` (line 141); the document handlers run when installed. -/
def dragDeliver (d : DragState) : MouseEvent → DragState
  | .down tagName x y => dragMouseDown tagName x y d
  | .move x y => if d.onmousemove then elementDrag x y d else d
  | .up => if d.onmouseup then closeDragElement d else d

/-- The host delivers a sequence of mouse events in order. -/
def dragAll (d : DragState) (es : List MouseEvent) : DragState :=
  es.foldl dragDeliver d

/-- Pointer moves as events. -/
def moves (ms : List (Int × Int)) : List MouseEvent :=
  ms.map fun m => MouseEvent.move m.1 m.2

/-- No drag session is open: neither document handler is installed. -/
def NoSession (d : DragState) : Prop :=
  d.onmousemove = false ∧ d.onmouseup = false

instance (d : DragState) : Decidable (NoSession d) := by
  unfold NoSession; infer_instance

/-! ## Running the handlers -/

/-- The page `updateTime` leaves, split at its two tests: the display is
written, then `triggerAlarm` runs or nothing more happens. -/
theorem updateTime_exec (now : JsDate) (env : AudioEnv) (p : Page) :
    (updateTime now env).exec p =
      (if (truthy p.alarmTime && !p.alarmTriggered) = true then
        (if (decide (p.alarmTime = some (currentTimeStr now))
              || decide (p.alarmTime = some (currentTimeStrWithSeconds now))) = true then
          triggerAlarm env
        else pure ())
      else (pure () : Js Unit)).exec { p with display := now.localeTime } :=
  rfl

theorem pure_exec (p : Page) : (pure () : Js Unit).exec p = (.ok (), p) := rfl

/-- The call `triggerAlarm` returns normally, and the page differs between audio
subsystems in the console and the tone counter only. -/
theorem triggerAlarm_exec (env : AudioEnv) (p : Page) :
    ∃ c t, (triggerAlarm env).exec p =
      (.ok (), { p with
        triggerCalls := p.triggerCalls + 1, alarmTriggered := true, ringing := true,
        statusText := "ALARM! Click to dismiss", statusColor := "#ff5252",
        dismissListener := true, console := c, tonesStarted := t }) := by
  cases env with
  | absent => exact ⟨_, _, rfl⟩
  | works => exact ⟨_, _, rfl⟩
  | throwsAt k => cases k <;> exact ⟨_, _, rfl⟩

theorem updateTime_exec_due (now : JsDate) (env : AudioEnv) (p : Page)
    (h : alarmDue p now = true) :
    (updateTime now env).exec p
      = (triggerAlarm env).exec { p with display := now.localeTime } := by
  rw [updateTime_exec]
  simp only [alarmDue, Bool.and_eq_true] at h
  rw [if_pos (by simpa using h.1), if_pos h.2]

theorem updateTime_exec_not_due (now : JsDate) (env : AudioEnv) (p : Page)
    (h : alarmDue p now = false) :
    (updateTime now env).exec p = (.ok (), { p with display := now.localeTime }) := by
  rw [updateTime_exec]
  by_cases h1 : (truthy p.alarmTime && !p.alarmTriggered) = true
  · have h2 : ¬ (decide (p.alarmTime = some (currentTimeStr now))
        || decide (p.alarmTime = some (currentTimeStrWithSeconds now))) = true := by
      intro h2
      simp [alarmDue, h1, h2] at h
    rw [if_pos h1, if_neg h2]; rfl
  · rw [if_neg h1]; rfl

/-- A tick that is due: the page after it. -/
theorem deliver_tick_due (now : JsDate) (env : AudioEnv) (p : Page)
    (h : alarmDue p now = true) :
    ∃ c t, deliver p (.tick now env) =
      { p with
        display := now.localeTime,
        triggerCalls := p.triggerCalls + 1, alarmTriggered := true, ringing := true,
        statusText := "ALARM! Click to dismiss", statusColor := "#ff5252",
        dismissListener := true, console := c, tonesStarted := t } := by
  obtain ⟨c, t, hct⟩ := triggerAlarm_exec env { p with display := now.localeTime }
  refine ⟨c, t, ?_⟩
  simp only [deliver, Event.handler]
  rw [updateTime_exec_due now env p h, hct]

/-- A tick that is not due writes the display and nothing else. -/
theorem deliver_tick_not_due (now : JsDate) (env : AudioEnv) (p : Page)
    (h : alarmDue p now = false) :
    deliver p (.tick now env) = { p with display := now.localeTime } := by
  simp only [deliver, Event.handler]
  rw [updateTime_exec_not_due now env p h]

theorem deliver_setAlarm_nonempty (v : String) (p : Page) (hv : v ≠ "") :
    deliver p (.setAlarm v) =
      { p with
        alarmTime := some v, alarmTriggered := false,
        statusText := "Alarm set for " ++ v, statusColor := "#4caf50", ringing := false } := by
  have h : (v != "") = true := by simpa using hv
  simp only [deliver, Event.handler, setAlarm, Js.exec, h]
  rfl

theorem deliver_setAlarm_empty (p : Page) :
    deliver p (.setAlarm "") =
      { p with statusText := "Please select a time", statusColor := "#ff9800" } :=
  rfl

theorem deliver_dismiss (p : Page) :
    deliver p .dismiss =
      { p with
        ringing := false, statusText := "Alarm dismissed", statusColor := "#aaa",
        alarmTime := none } :=
  rfl

theorem deliver_click (p : Page) :
    deliver p .click =
      if p.dismissListener = true then
        { p with
          dismissListener := false,
          ringing := false, statusText := "Alarm dismissed", statusColor := "#aaa",
          alarmTime := none }
      else p := by
  obtain ⟨a, tr, r, st, sc, ds, l, c, n, t⟩ := p
  cases l <;> rfl

/-! ## Sequences of ticks -/

theorem currentTimeStr_ne_empty (now : JsDate) : currentTimeStr now ≠ "" := by
  intro h
  have hl := congrArg String.length h
  simp only [currentTimeStr, String.length_append] at hl
  have hc : ":".length = 1 := rfl
  have he : "".length = 0 := rfl
  omega

theorem currentTimeStrWithSeconds_ne_empty (now : JsDate) :
    currentTimeStrWithSeconds now ≠ "" := by
  intro h
  have hl := congrArg String.length h
  simp only [currentTimeStrWithSeconds, String.length_append] at hl
  have hc : ":".length = 1 := rfl
  have he : "".length = 0 := rfl
  omega

theorem matchesTarget_ne_empty (a : String) (now : JsDate) (h : matchesTarget a now) :
    a ≠ "" := by
  rcases h with h | h
  · rw [h]; exact currentTimeStr_ne_empty now
  · rw [h]; exact currentTimeStrWithSeconds_ne_empty now

/-- On an armed page the test of `updateTime` holds exactly at a matching
tick. -/
theorem alarmDue_armed (p : Page) (a : String) (now : JsDate) (hp : Armed p a) :
    alarmDue p now = true ↔ matchesTarget a now := by
  obtain ⟨hA, hT⟩ := hp
  constructor
  · intro h
    simp only [alarmDue, hA, hT, Bool.and_eq_true, Bool.or_eq_true, decide_eq_true_eq,
      Option.some.injEq] at h
    exact h.2
  · intro h
    have hne := matchesTarget_ne_empty a now h
    have ht : truthy (some a) = true := by simpa [truthy] using hne
    simp only [alarmDue, hA, hT, ht, Bool.and_eq_true, Bool.or_eq_true, decide_eq_true_eq,
      Option.some.injEq, Bool.not_false, true_and]
    exact h

theorem alarmDue_triggered (p : Page) (now : JsDate) (h : p.alarmTriggered = true) :
    alarmDue p now = false := by
  simp [alarmDue, h]

theorem deliverAll_cons (p : Page) (e : Event) (es : List Event) :
    deliverAll p (e :: es) = deliverAll (deliver p e) es :=
  rfl

theorem deliverAll_append (p : Page) (es fs : List Event) :
    deliverAll p (es ++ fs) = deliverAll (deliverAll p es) fs := by
  simp [deliverAll, List.foldl_append]

theorem ticks_append (ts us : List (JsDate × AudioEnv)) :
    ticks (ts ++ us) = ticks ts ++ ticks us := by
  simp [ticks]

/-- Ticks none of which is due write the display and nothing else. -/
theorem deliverAll_ticks_quiet (ts : List (JsDate × AudioEnv)) (p : Page)
    (h : ∀ t ∈ ts, alarmDue p t.1 = false) :
    deliverAll p (ticks ts)
      = { p with display := (ts.map fun t => t.1.localeTime).getLastD p.display } := by
  induction ts generalizing p with
  | nil => rfl
  | cons t ts ih =>
    have ht : alarmDue p t.1 = false := h t (List.mem_cons_self _ _)
    have hstep : deliver p (.tick t.1 t.2) = { p with display := t.1.localeTime } :=
      deliver_tick_not_due t.1 t.2 p ht
    have hrest : ∀ u ∈ ts, alarmDue { p with display := t.1.localeTime } u.1 = false :=
      fun u hu => h u (List.mem_cons_of_mem _ hu)
    show deliverAll (deliver p (.tick t.1 t.2)) (ticks ts) = _
    rw [hstep, ih _ hrest]
    simp only [List.map_cons, List.getLastD_cons]

/-! ## The alarm invariant -/

theorem visualInv_deliver (p : Page) (e : Event) (h : VisualInv p) :
    VisualInv (deliver p e) := by
  cases e with
  | tick now env =>
    cases hd : alarmDue p now
    · rw [deliver_tick_not_due now env p hd]; exact h
    · obtain ⟨c, t, hq⟩ := deliver_tick_due now env p hd
      rw [hq]
      have hne : p.alarmTime ≠ none := by
        intro hn
        simp [alarmDue, hn, truthy] at hd
      simp [VisualInv, Ringing, hne]
  | setAlarm v =>
    by_cases hv : v = ""
    · subst hv
      rw [deliver_setAlarm_empty]; exact h
    · rw [deliver_setAlarm_nonempty v p hv]
      simp [VisualInv, Ringing]
  | click =>
    rw [deliver_click]
    split
    · simp [VisualInv, Ringing]
    · exact h
  | dismiss =>
    rw [deliver_dismiss]
    simp [VisualInv, Ringing]

theorem visualInv_deliverAll (es : List Event) (p : Page) (h : VisualInv p) :
    VisualInv (deliverAll p es) := by
  induction es generalizing p with
  | nil => exact h
  | cons e es ih => exact ih _ (visualInv_deliver p e h)

/-! ## Two-digit formatting -/

theorem digitChar_ne_colon (d : Nat) (h : d < 10) : Nat.digitChar d ≠ ':' := by
  interval_cases d <;> decide

theorem digitChar_inj (a b : Nat) (ha : a < 10) (hb : b < 10)
    (h : Nat.digitChar a = Nat.digitChar b) : a = b := by
  interval_cases a <;> interval_cases b <;> first | rfl | (exact absurd h (by decide))

theorem colon_not_mem_toDigitsCore (fuel n : Nat) (ds : List Char) (h : ':' ∉ ds) :
    ':' ∉ Nat.toDigitsCore 10 fuel n ds := by
  induction fuel generalizing n ds with
  | zero => simpa [Nat.toDigitsCore] using h
  | succ fuel ih =>
    have hd : ':' ∉ Nat.digitChar (n % 10) :: ds := by
      intro hm
      rcases List.mem_cons.1 hm with hm | hm
      · exact digitChar_ne_colon (n % 10) (Nat.mod_lt _ (by decide)) hm.symm
      · exact h hm
    simp only [Nat.toDigitsCore]
    split
    · exact hd
    · exact ih _ _ hd

theorem pad2_data (n : Nat) :
    (pad2 n).data
      = List.replicate (2 - (Nat.toDigits 10 n).length) '0' ++ Nat.toDigits 10 n :=
  rfl

theorem colon_not_mem_pad2 (n : Nat) : ':' ∉ (pad2 n).data := by
  rw [pad2_data]
  intro h
  rcases List.mem_append.1 h with h | h
  · exact absurd (List.eq_of_mem_replicate h) (by decide)
  · exact colon_not_mem_toDigitsCore _ _ [] (List.not_mem_nil _) h

theorem pad2_two_digits (n : Nat) (h : n < 100) :
    (pad2 n).data = [Nat.digitChar (n / 10), Nat.digitChar (n % 10)] := by
  interval_cases n <;> rfl

theorem length_le_toDigitsCore (fuel n : Nat) (ds : List Char) :
    ds.length ≤ (Nat.toDigitsCore 10 fuel n ds).length := by
  induction fuel generalizing n ds with
  | zero => simp [Nat.toDigitsCore]
  | succ fuel ih =>
    simp only [Nat.toDigitsCore]
    split
    · simp
    · exact le_trans (by simp) (ih _ _)

theorem three_le_length_toDigits (n : Nat) (h : 100 ≤ n) :
    3 ≤ (Nat.toDigits 10 n).length := by
  obtain ⟨f, hf⟩ : ∃ f, n + 1 = f + 3 := ⟨n - 2, by omega⟩
  have h1 : n / 10 ≠ 0 := by omega
  have h2 : n / 10 / 10 ≠ 0 := by omega
  unfold Nat.toDigits
  rw [hf]
  simp only [Nat.toDigitsCore, h1, h2, if_false]
  split
  · simp
  · exact le_trans (by simp) (length_le_toDigitsCore _ _ _)

theorem pad2_inj (n k : Nat) (hn : n < 100) (h : pad2 n = pad2 k) : n = k := by
  have hd : (pad2 n).data = (pad2 k).data := congrArg String.data h
  by_cases hk : k < 100
  · rw [pad2_two_digits n hn, pad2_two_digits k hk] at hd
    simp only [List.cons.injEq, and_true] at hd
    have h1 := digitChar_inj _ _ (by omega) (by omega) hd.1
    have h2 := digitChar_inj _ _ (Nat.mod_lt _ (by decide)) (Nat.mod_lt _ (by decide)) hd.2
    omega
  · have hl := congrArg List.length hd
    rw [pad2_two_digits n hn, pad2_data k] at hl
    have h3 := three_le_length_toDigits k (by omega)
    simp only [List.length_cons, List.length_nil, List.length_append, List.length_replicate] at hl
    omega

/-- Two texts that split at their first colon are equal only part by part. -/
theorem split_at_colon (x1 x2 z1 z2 : List Char) (h1 : ':' ∉ x1) (h2 : ':' ∉ x2)
    (h : x1 ++ ':' :: z1 = x2 ++ ':' :: z2) : x1 = x2 ∧ z1 = z2 := by
  induction x1 generalizing x2 with
  | nil =>
    cases x2 with
    | nil => simpa using h
    | cons c cs =>
      simp only [List.nil_append, List.cons_append, List.cons.injEq] at h
      exact absurd (h.1 ▸ List.mem_cons_self _ _) h2
  | cons b bs ih =>
    cases x2 with
    | nil =>
      simp only [List.nil_append, List.cons_append, List.cons.injEq] at h
      exact absurd (h.1 ▸ List.mem_cons_self _ _) h1
    | cons c cs =>
      simp only [List.cons_append, List.cons.injEq] at h
      obtain ⟨hbc, hrest⟩ := h
      have := ih cs (fun hm => h1 (List.mem_cons_of_mem _ hm))
        (fun hm => h2 (List.mem_cons_of_mem _ hm)) hrest
      exact ⟨by rw [hbc, this.1], this.2⟩

theorem colon_data : ":".data = [':'] := rfl

/-- The text HH:MM:SS of a time of day determines the time. -/
theorem hhmmss_eq_iff (h m s h0 m0 s0 : Nat) (hh : h < 100) (hm : m < 100) (hs : s < 100) :
    pad2 h0 ++ ":" ++ pad2 m0 ++ ":" ++ pad2 s0 = pad2 h ++ ":" ++ pad2 m ++ ":" ++ pad2 s
      ↔ h = h0 ∧ m = m0 ∧ s = s0 := by
  constructor
  · intro e
    have ed := congrArg String.data e
    simp only [String.data_append, colon_data, List.append_assoc, List.singleton_append] at ed
    obtain ⟨e1, ed⟩ := split_at_colon _ _ _ _ (colon_not_mem_pad2 h0) (colon_not_mem_pad2 h) ed
    obtain ⟨e2, e3⟩ := split_at_colon _ _ _ _ (colon_not_mem_pad2 m0) (colon_not_mem_pad2 m) ed
    exact ⟨pad2_inj h h0 hh (String.ext e1.symm), pad2_inj m m0 hm (String.ext e2.symm),
      pad2_inj s s0 hs (String.ext e3.symm)⟩
  · rintro ⟨rfl, rfl, rfl⟩
    rfl

/-- The text HH:MM of a time of day determines the hour and the minute. -/
theorem hhmm_eq_iff (h m h0 m0 : Nat) (hh : h < 100) (hm : m < 100) :
    pad2 h0 ++ ":" ++ pad2 m0 = pad2 h ++ ":" ++ pad2 m ↔ h = h0 ∧ m = m0 := by
  constructor
  · intro e
    have ed := congrArg String.data e
    simp only [String.data_append, colon_data, List.append_assoc, List.singleton_append] at ed
    obtain ⟨e1, e2⟩ := split_at_colon _ _ _ _ (colon_not_mem_pad2 h0) (colon_not_mem_pad2 h) ed
    exact ⟨pad2_inj h h0 hh (String.ext e1.symm), pad2_inj m m0 hm (String.ext e2.symm)⟩
  · rintro ⟨rfl, rfl⟩
    rfl

/-- A text HH:MM is never a text HH:MM:SS. -/
theorem hhmm_ne_hhmmss (h m s h0 m0 : Nat) :
    pad2 h0 ++ ":" ++ pad2 m0 ≠ pad2 h ++ ":" ++ pad2 m ++ ":" ++ pad2 s := by
  intro e
  have ed := congrArg String.data e
  simp only [String.data_append, colon_data, List.append_assoc, List.singleton_append] at ed
  obtain ⟨_, e2⟩ := split_at_colon _ _ _ _ (colon_not_mem_pad2 h0) (colon_not_mem_pad2 h) ed
  apply colon_not_mem_pad2 m0
  rw [e2]
  simp

/-- Whether `triggerAlarm` ran during a tick shows in its call counter. -/
theorem tick_triggers_iff_due (p : Page) (now : JsDate) (env : AudioEnv) :
    (deliver p (.tick now env)).triggerCalls = p.triggerCalls + 1 ↔ alarmDue p now = true := by
  cases hd : alarmDue p now
  · rw [deliver_tick_not_due now env p hd]
    simp
  · obtain ⟨c, t, hq⟩ := deliver_tick_due now env p hd
    rw [hq]
    simp

/-! ## Sequences of pointer moves -/

theorem dragAll_cons (d : DragState) (e : MouseEvent) (es : List MouseEvent) :
    dragAll d (e :: es) = dragAll (dragDeliver d e) es :=
  rfl

/-- With no move handler installed, pointer moves change nothing. -/
theorem dragAll_moves_closed (ms : List (Int × Int)) (d : DragState)
    (h : d.onmousemove = false) : dragAll d (moves ms) = d := by
  induction ms with
  | nil => rfl
  | cons m ms ih =>
    show dragAll (dragDeliver d (.move m.1 m.2)) (moves ms) = d
    have hstep : dragDeliver d (.move m.1 m.2) = d := by
      simp [dragDeliver, h]
    rw [hstep, ih]

theorem toDouble_exact (z : Int) (h : Exact z) : toDouble z = z := by
  have hz : z.natAbs ≤ 2 ^ 53 := h
  unfold toDouble
  rw [if_pos hz]

/-- The consecutive pairs of a pointer path stay consecutive pairs when the path
goes on. -/
theorem mem_zip_concat (p l : Int × Int) (ms : List (Int × Int)) (s : (Int × Int) × (Int × Int))
    (h : s ∈ List.zip (p :: ms) ms) : s ∈ List.zip (p :: (ms ++ [l])) (ms ++ [l]) := by
  induction ms generalizing p with
  | nil => simp at h
  | cons m ms ih =>
    simp only [List.cons_append, List.zip_cons_cons, List.mem_cons] at h ⊢
    rcases h with h | h
    · exact Or.inl h
    · exact Or.inr (ih m h)

/-- With the move handler installed and every subtraction exact, the position
follows the pointer: after the moves the last pointer is in `pos3`, `pos4` and
the position has moved by the pointer's displacement. -/
theorem dragAll_moves_open (ms : List (Int × Int)) (d : DragState)
    (h : d.onmousemove = true)
    (hstep : ∀ s ∈ List.zip ((d.pos3, d.pos4) :: ms) ms,
      Exact (s.1.1 - s.2.1) ∧ Exact (s.1.2 - s.2.2))
    (hpos : ∀ m ∈ ms, Exact (d.left + (m.1 - d.pos3)) ∧ Exact (d.top + (m.2 - d.pos4))) :
    (dragAll d (moves ms)).onmousemove = true ∧
    (dragAll d (moves ms)).pos3 = (ms.getLastD (d.pos3, d.pos4)).1 ∧
    (dragAll d (moves ms)).pos4 = (ms.getLastD (d.pos3, d.pos4)).2 ∧
    (dragAll d (moves ms)).left = d.left + ((ms.getLastD (d.pos3, d.pos4)).1 - d.pos3) ∧
    (dragAll d (moves ms)).top = d.top + ((ms.getLastD (d.pos3, d.pos4)).2 - d.pos4) := by
  induction ms generalizing d with
  | nil => simp [dragAll, moves, h]
  | cons m ms ih =>
    have hdrag : dragDeliver d (.move m.1 m.2) = elementDrag m.1 m.2 d := by
      simp [dragDeliver, h]
    have hopen : (elementDrag m.1 m.2 d).onmousemove = true := h
    have hhead := hstep ((d.pos3, d.pos4), m) (by simp)
    have hm := hpos m (List.mem_cons_self _ _)
    have e3 : (elementDrag m.1 m.2 d).pos3 = m.1 := rfl
    have e4 : (elementDrag m.1 m.2 d).pos4 = m.2 := rfl
    have el : (elementDrag m.1 m.2 d).left = d.left + (m.1 - d.pos3) := by
      show toDouble (d.left - toDouble (d.pos3 - m.1)) = _
      rw [toDouble_exact _ hhead.1]
      have hz : d.left - (d.pos3 - m.1) = d.left + (m.1 - d.pos3) := by omega
      rw [hz, toDouble_exact _ hm.1]
    have et : (elementDrag m.1 m.2 d).top = d.top + (m.2 - d.pos4) := by
      show toDouble (d.top - toDouble (d.pos4 - m.2)) = _
      rw [toDouble_exact _ hhead.2]
      have hz : d.top - (d.pos4 - m.2) = d.top + (m.2 - d.pos4) := by omega
      rw [hz, toDouble_exact _ hm.2]
    have hstep2 : ∀ s ∈ List.zip
        (((elementDrag m.1 m.2 d).pos3, (elementDrag m.1 m.2 d).pos4) :: ms) ms,
        Exact (s.1.1 - s.2.1) ∧ Exact (s.1.2 - s.2.2) := by
      intro s hs
      rw [e3, e4, Prod.mk.eta] at hs
      exact hstep s (by simp only [List.zip_cons_cons, List.mem_cons]; exact Or.inr hs)
    have hpos2 : ∀ k ∈ ms,
        Exact ((elementDrag m.1 m.2 d).left + (k.1 - (elementDrag m.1 m.2 d).pos3)) ∧
        Exact ((elementDrag m.1 m.2 d).top + (k.2 - (elementDrag m.1 m.2 d).pos4)) := by
      intro k hk
      have hkk := hpos k (List.mem_cons_of_mem _ hk)
      rw [el, et, e3, e4]
      have h1 : d.left + (m.1 - d.pos3) + (k.1 - m.1) = d.left + (k.1 - d.pos3) := by omega
      have h2 : d.top + (m.2 - d.pos4) + (k.2 - m.2) = d.top + (k.2 - d.pos4) := by omega
      rw [h1, h2]
      exact hkk
    obtain ⟨i1, i2, i3, i4, i5⟩ := ih (elementDrag m.1 m.2 d) hopen hstep2 hpos2
    rw [e3, e4] at i2 i3 i4 i5
    rw [el] at i4
    rw [et] at i5
    simp only [Prod.mk.eta] at i2 i3 i4 i5
    have hrun : dragAll d (moves (m :: ms)) = dragAll (elementDrag m.1 m.2 d) (moves ms) := by
      show dragAll (dragDeliver d (.move m.1 m.2)) (moves ms) = _
      rw [hdrag]
    rw [hrun, List.getLastD_cons]
    refine ⟨i1, i2, i3, ?_, ?_⟩
    · rw [i4]; omega
    · rw [i5]; omega

theorem dragMouseDown_body (tagName : String) (x y : Int) (d : DragState)
    (h : tagName ≠ "INPUT" ∧ tagName ≠ "BUTTON") :
    dragMouseDown tagName x y d
      = { d with pos3 := x, pos4 := y, onmouseup := true, onmousemove := true } := by
  have hc : ["INPUT", "BUTTON"].contains tagName = false := by
    simp [h.1, h.2]
  unfold dragMouseDown
  rw [hc]
  rfl

theorem dragMouseDown_interactive (tagName : String) (x y : Int) (d : DragState)
    (h : tagName = "INPUT" ∨ tagName = "BUTTON") :
    dragMouseDown tagName x y d = d := by
  rcases h with h | h <;> subst h <;> rfl

/-! ## Properties of the alarm controller -/

/-- C1: from a page armed with target `a`, under ticks only, `triggerAlarm` is
not called before the first tick whose time matches `a` as HH:MM or as
HH:MM:SS, it is called at that tick, and after that tick and after any further
ticks the page is Ringing (target still `a`, `alarmTriggered` true, ringing
visual on) with `triggerAlarm` called that one time only, whatever the
further ticks are. -/
theorem alarm_rings_once_at_first_match (a : String) (p : Page)
    (pre later : List (JsDate × AudioEnv)) (now : JsDate) (env : AudioEnv)
    (hp : Armed p a)
    (hpre : ∀ t ∈ pre, ¬ matchesTarget a t.1)
    (hnow : matchesTarget a now) :
    (deliverAll p (ticks pre)).triggerCalls = p.triggerCalls ∧
    Armed (deliverAll p (ticks pre)) a ∧
    (deliverAll p (ticks (pre ++ [(now, env)]))).triggerCalls = p.triggerCalls + 1 ∧
    Ringing (deliverAll p (ticks (pre ++ (now, env) :: later))) ∧
    (deliverAll p (ticks (pre ++ (now, env) :: later))).alarmTime = some a ∧
    (deliverAll p (ticks (pre ++ (now, env) :: later))).ringing = true ∧
    (deliverAll p (ticks (pre ++ (now, env) :: later))).triggerCalls = p.triggerCalls + 1 := by
  have hq : ∀ t ∈ pre, alarmDue p t.1 = false := by
    intro t ht
    cases hd : alarmDue p t.1
    · rfl
    · exact absurd ((alarmDue_armed p a t.1 hp).1 hd) (hpre t ht)
  have h1 := deliverAll_ticks_quiet pre p hq
  have hp1 : Armed (deliverAll p (ticks pre)) a := by
    rw [h1]; exact hp
  have hdue : alarmDue (deliverAll p (ticks pre)) now = true :=
    (alarmDue_armed _ a now hp1).2 hnow
  obtain ⟨c, t, h2⟩ := deliver_tick_due now env _ hdue
  have hsplit : ∀ us : List (JsDate × AudioEnv),
      deliverAll p (ticks (pre ++ (now, env) :: us))
        = deliverAll (deliver (deliverAll p (ticks pre)) (.tick now env)) (ticks us) := by
    intro us
    rw [ticks_append, deliverAll_append]
    rfl
  have h3 : ∀ us : List (JsDate × AudioEnv),
      ∀ u ∈ us, alarmDue (deliver (deliverAll p (ticks pre)) (.tick now env)) u.1 = false := by
    intro us u _
    apply alarmDue_triggered
    rw [h2]
  refine ⟨by rw [h1], hp1, ?_, ?_, ?_, ?_, ?_⟩
  · rw [hsplit [], h2, h1]; rfl
  · rw [hsplit later, deliverAll_ticks_quiet later _ (h3 later), h2, h1]
    exact ⟨by simp [hp.1], rfl⟩
  · rw [hsplit later, deliverAll_ticks_quiet later _ (h3 later), h2, h1]
    exact hp.1
  · rw [hsplit later, deliverAll_ticks_quiet later _ (h3 later), h2]
  · rw [hsplit later, deliverAll_ticks_quiet later _ (h3 later), h2, h1]

/-- C1 at target "07:00" with ticks 06:59:59, 07:00:00, 07:00:01: the alarm
rings at 07:00:00 and only there. -/
theorem alarm_rings_once_at_first_match_witness :
    Armed (deliver Page.initial (.setAlarm "07:00")) "07:00" ∧
    (∀ t ∈ [((⟨6, 59, 59, "06:59:59"⟩ : JsDate), AudioEnv.works)],
      ¬ matchesTarget "07:00" t.1) ∧
    matchesTarget "07:00" ⟨7, 0, 0, "07:00:00"⟩ ∧
    (deliverAll (deliver Page.initial (.setAlarm "07:00"))
      (ticks [(⟨6, 59, 59, "06:59:59"⟩, .works)])).triggerCalls = 0 ∧
    Ringing (deliverAll (deliver Page.initial (.setAlarm "07:00"))
      (ticks ([(⟨6, 59, 59, "06:59:59"⟩, .works)]
        ++ (⟨7, 0, 0, "07:00:00"⟩, .works) :: [(⟨7, 0, 1, "07:00:01"⟩, .works)]))) ∧
    (deliverAll (deliver Page.initial (.setAlarm "07:00"))
      (ticks ([(⟨6, 59, 59, "06:59:59"⟩, .works)]
        ++ (⟨7, 0, 0, "07:00:00"⟩, .works) :: [(⟨7, 0, 1, "07:00:01"⟩, .works)]))).triggerCalls
      = 1 :=
  have h := alarm_rings_once_at_first_match "07:00" (deliver Page.initial (.setAlarm "07:00"))
    [(⟨6, 59, 59, "06:59:59"⟩, .works)] [(⟨7, 0, 1, "07:00:01"⟩, .works)]
    ⟨7, 0, 0, "07:00:00"⟩ .works (by decide) (by decide) (by decide)
  ⟨by decide, by decide, by decide, h.1, h.2.2.2.1, h.2.2.2.2.2.2⟩

/-- C2 (the code at the failing input): after an alarm set for "07:00" has
fired and a new alarm was set for "08:00", the page is Armed with the ringing
visual off, yet `dismissAlarm` is still in the container's click listener
list, and a click on the container clears the new target and shows "Alarm
dismissed". -/
theorem stale_dismiss_listener_cancels_new_alarm :
    Armed (deliverAll Page.initial
      [.setAlarm "07:00", .tick ⟨7, 0, 0, "07:00:00"⟩ .works, .setAlarm "08:00"]) "08:00" ∧
    (deliverAll Page.initial
      [.setAlarm "07:00", .tick ⟨7, 0, 0, "07:00:00"⟩ .works, .setAlarm "08:00"]).ringing
      = false ∧
    (deliverAll Page.initial
      [.setAlarm "07:00", .tick ⟨7, 0, 0, "07:00:00"⟩ .works, .setAlarm "08:00"]).dismissListener
      = true ∧
    (deliverAll Page.initial
      [.setAlarm "07:00", .tick ⟨7, 0, 0, "07:00:00"⟩ .works, .setAlarm "08:00",
        .click]).alarmTime = none ∧
    (deliverAll Page.initial
      [.setAlarm "07:00", .tick ⟨7, 0, 0, "07:00:00"⟩ .works, .setAlarm "08:00",
        .click]).statusText = "Alarm dismissed" := by
  decide

/-- C3: in every page reached from the initial page by ticks, `setAlarm` calls,
container clicks and calls of `dismissAlarm`, the container carries
`alarm-ringing` if and only if `alarmTime` is non-null and `alarmTriggered` is
true. -/
theorem ringing_visual_iff_ringing (es : List Event) :
    (deliverAll Page.initial es).ringing = true ↔
      ((deliverAll Page.initial es).alarmTime ≠ none ∧
        (deliverAll Page.initial es).alarmTriggered = true) :=
  visualInv_deliverAll es Page.initial (by unfold VisualInv Ringing; decide)

/-- C4: on every page, a Ringing one with the ringing visual on included,
`setAlarm` with a non-empty input `v` returns normally and leaves the page
Armed with target `v`, the ringing visual off, hence not Ringing and not both
Armed and showing the visual. -/
theorem setAlarm_while_ringing_rearms (p : Page) (v : String) (hv : v ≠ "") :
    ((setAlarm v).exec p).1 = .ok () ∧
    Armed (deliver p (.setAlarm v)) v ∧
    (deliver p (.setAlarm v)).ringing = false ∧
    ¬ Ringing (deliver p (.setAlarm v)) ∧
    ¬ (Armed (deliver p (.setAlarm v)) v ∧ (deliver p (.setAlarm v)).ringing = true) := by
  have hb : (v != "") = true := by simpa using hv
  have hok : ((setAlarm v).exec p).1 = .ok () := by
    simp only [setAlarm, hb]
    rfl
  rw [deliver_setAlarm_nonempty v p hv]
  exact ⟨hok, ⟨rfl, rfl⟩, rfl, by simp [Ringing], by simp⟩

/-- C4 on the page ringing for "07:00", re-armed for "08:00". -/
theorem setAlarm_while_ringing_rearms_witness :
    Ringing (deliverAll Page.initial
      [.setAlarm "07:00", .tick ⟨7, 0, 0, "07:00:00"⟩ .works]) ∧
    (deliverAll Page.initial
      [.setAlarm "07:00", .tick ⟨7, 0, 0, "07:00:00"⟩ .works]).ringing = true ∧
    Armed (deliver (deliverAll Page.initial
      [.setAlarm "07:00", .tick ⟨7, 0, 0, "07:00:00"⟩ .works]) (.setAlarm "08:00")) "08:00" ∧
    (deliver (deliverAll Page.initial
      [.setAlarm "07:00", .tick ⟨7, 0, 0, "07:00:00"⟩ .works]) (.setAlarm "08:00")).ringing
      = false :=
  have h := setAlarm_while_ringing_rearms
    (deliverAll Page.initial [.setAlarm "07:00", .tick ⟨7, 0, 0, "07:00:00"⟩ .works])
    "08:00" (by decide)
  ⟨by decide, by decide, h.2.1, h.2.2.1⟩

/-- C6: from a page armed with target `a`, ticks none of which matches `a` as
HH:MM or as HH:MM:SS leave the page Armed with the same target:
`alarmTriggered` stays false, `triggerAlarm` is not called, the ringing
visual, the status and the listener list are as they were (so the visual,
off on an armed page, stays off), however many ticks there are. -/
theorem unmatched_ticks_stay_armed (a : String) (p : Page) (ts : List (JsDate × AudioEnv))
    (hp : Armed p a)
    (hts : ∀ t ∈ ts, ¬ matchesTarget a t.1) :
    Armed (deliverAll p (ticks ts)) a ∧
    (deliverAll p (ticks ts)).ringing = p.ringing ∧
    (p.ringing = false → (deliverAll p (ticks ts)).ringing = false) ∧
    (deliverAll p (ticks ts)).triggerCalls = p.triggerCalls ∧
    (deliverAll p (ticks ts)).statusText = p.statusText ∧
    (deliverAll p (ticks ts)).dismissListener = p.dismissListener := by
  have hq : ∀ t ∈ ts, alarmDue p t.1 = false := by
    intro t ht
    cases hd : alarmDue p t.1
    · rfl
    · exact absurd ((alarmDue_armed p a t.1 hp).1 hd) (hts t ht)
  rw [deliverAll_ticks_quiet ts p hq]
  exact ⟨hp, rfl, fun h => h, rfl, rfl, rfl⟩

/-- C6 at target "07:00:05" with ticks 07:00:04 and 07:00:06: the second of
the target is skipped and the page stays Armed. -/
theorem unmatched_ticks_stay_armed_witness :
    Armed (deliver Page.initial (.setAlarm "07:00:05")) "07:00:05" ∧
    (∀ t ∈ [((⟨7, 0, 4, "07:00:04"⟩ : JsDate), AudioEnv.works),
        (⟨7, 0, 6, "07:00:06"⟩, AudioEnv.works)], ¬ matchesTarget "07:00:05" t.1) ∧
    Armed (deliverAll (deliver Page.initial (.setAlarm "07:00:05"))
      (ticks [(⟨7, 0, 4, "07:00:04"⟩, .works), (⟨7, 0, 6, "07:00:06"⟩, .works)])) "07:00:05" ∧
    (deliverAll (deliver Page.initial (.setAlarm "07:00:05"))
      (ticks [(⟨7, 0, 4, "07:00:04"⟩, .works), (⟨7, 0, 6, "07:00:06"⟩, .works)])).ringing
      = false :=
  have h := unmatched_ticks_stay_armed "07:00:05" (deliver Page.initial (.setAlarm "07:00:05"))
    [(⟨7, 0, 4, "07:00:04"⟩, .works), (⟨7, 0, 6, "07:00:06"⟩, .works)]
    (by decide) (by decide)
  ⟨by decide, by decide, h.1, h.2.2.1 (by decide)⟩

/-- C7: on every page, `setAlarm` with the empty input returns normally, leaves
`alarmTime`, `alarmTriggered`, the ringing visual and the listener list as
they were, and sets the status text to "Please select a time". -/
theorem setAlarm_empty_keeps_state (p : Page) :
    ((setAlarm "").exec p).1 = .ok () ∧
    (deliver p (.setAlarm "")).alarmTime = p.alarmTime ∧
    (deliver p (.setAlarm "")).alarmTriggered = p.alarmTriggered ∧
    (deliver p (.setAlarm "")).ringing = p.ringing ∧
    (deliver p (.setAlarm "")).dismissListener = p.dismissListener ∧
    (deliver p (.setAlarm "")).statusText = "Please select a time" :=
  ⟨rfl, rfl, rfl, rfl, rfl, rfl⟩

/-- C9: on every page and with every audio subsystem (absent, working, or
throwing at any of its calls), `triggerAlarm` returns normally, and the page
it leaves has `alarmTriggered` true, the ringing visual on, the status
"ALARM! Click to dismiss" and the dismiss listener registered; apart from the
console and the tone counter the page is the same for every audio
subsystem. -/
theorem triggerAlarm_survives_audio (p : Page) (env : AudioEnv) :
    ((triggerAlarm env).exec p).1 = .ok () ∧
    ((triggerAlarm env).exec p).2.alarmTriggered = true ∧
    ((triggerAlarm env).exec p).2.ringing = true ∧
    ((triggerAlarm env).exec p).2.statusText = "ALARM! Click to dismiss" ∧
    ((triggerAlarm env).exec p).2.dismissListener = true ∧
    ((triggerAlarm env).exec p).2.alarmTime = p.alarmTime ∧
    ∀ env2 : AudioEnv,
      { ((triggerAlarm env).exec p).2 with console := [], tonesStarted := 0 }
        = { ((triggerAlarm env2).exec p).2 with console := [], tonesStarted := 0 } := by
  obtain ⟨c, t, h⟩ := triggerAlarm_exec env p
  refine ⟨by rw [h], by rw [h], by rw [h], by rw [h], by rw [h], by rw [h], ?_⟩
  intro env2
  obtain ⟨c2, t2, h2⟩ := triggerAlarm_exec env2 p
  rw [h, h2]

/-- C10: at a tick whose time is a time of day (hour below 24, minute and
second below 60), a page armed with the zero-padded text HH:MM:SS of
`(h0, m0, s0)` calls `triggerAlarm` if and only if the tick's hour, minute
and second are `h0`, `m0` and `s0`, and a page armed with the zero-padded text
HH:MM of `(h0, m0)` calls it if and only if the tick's hour and minute are
`h0` and `m0`. -/
theorem alarm_fires_only_at_target (p : Page) (now : JsDate) (env : AudioEnv)
    (h0 m0 s0 : Nat)
    (hh : now.hours < 24) (hm : now.minutes < 60) (hs : now.seconds < 60) :
    (Armed p (pad2 h0 ++ ":" ++ pad2 m0 ++ ":" ++ pad2 s0) →
      ((deliver p (.tick now env)).triggerCalls = p.triggerCalls + 1
        ↔ now.hours = h0 ∧ now.minutes = m0 ∧ now.seconds = s0)) ∧
    (Armed p (pad2 h0 ++ ":" ++ pad2 m0) →
      ((deliver p (.tick now env)).triggerCalls = p.triggerCalls + 1
        ↔ now.hours = h0 ∧ now.minutes = m0)) := by
  constructor
  · intro hp
    rw [tick_triggers_iff_due, alarmDue_armed p _ now hp]
    unfold matchesTarget currentTimeStr currentTimeStrWithSeconds
    rw [hhmmss_eq_iff now.hours now.minutes now.seconds h0 m0 s0
      (by omega) (by omega) (by omega)]
    constructor
    · rintro (e | e)
      · exact absurd e.symm (hhmm_ne_hhmmss h0 m0 s0 now.hours now.minutes)
      · exact e
    · exact fun e => Or.inr e
  · intro hp
    rw [tick_triggers_iff_due, alarmDue_armed p _ now hp]
    unfold matchesTarget currentTimeStr currentTimeStrWithSeconds
    rw [hhmm_eq_iff now.hours now.minutes h0 m0 (by omega) (by omega)]
    constructor
    · rintro (e | e)
      · exact e
      · exact absurd e (hhmm_ne_hhmmss now.hours now.minutes now.seconds h0 m0)
    · exact fun e => Or.inl e

/-- C10 at the tick 07:00:05: armed for 07:00:05 the alarm fires, armed for
07:01 it does not. -/
theorem alarm_fires_only_at_target_witness :
    (7 < 24 ∧ 0 < 60 ∧ 5 < 60) ∧
    Armed (deliver Page.initial (.setAlarm "07:00:05"))
      (pad2 7 ++ ":" ++ pad2 0 ++ ":" ++ pad2 5) ∧
    (deliver (deliver Page.initial (.setAlarm "07:00:05"))
      (.tick ⟨7, 0, 5, "07:00:05"⟩ .works)).triggerCalls
      = (deliver Page.initial (.setAlarm "07:00:05")).triggerCalls + 1 ∧
    Armed (deliver Page.initial (.setAlarm "07:01")) (pad2 7 ++ ":" ++ pad2 1) ∧
    (deliver (deliver Page.initial (.setAlarm "07:01"))
      (.tick ⟨7, 0, 5, "07:00:05"⟩ .works)).triggerCalls
      ≠ (deliver Page.initial (.setAlarm "07:01")).triggerCalls + 1 :=
  have a := alarm_fires_only_at_target (deliver Page.initial (.setAlarm "07:00:05"))
    ⟨7, 0, 5, "07:00:05"⟩ .works 7 0 5 (by decide) (by decide) (by decide)
  have b := alarm_fires_only_at_target (deliver Page.initial (.setAlarm "07:01"))
    ⟨7, 0, 5, "07:00:05"⟩ .works 7 1 0 (by decide) (by decide) (by decide)
  ⟨by decide, by decide, (a.1 (by decide)).2 ⟨rfl, rfl, rfl⟩, by decide,
    fun e => absurd ((b.2 (by decide)).1 e).2 (by decide)⟩

/-! ## Properties of the drag controller -/

/-- C5, as the code has it: after pointer-down at `(x0, y0)` on a target that is
neither an INPUT nor a BUTTON and pointer moves `ms` followed by a move to
`(x, y)`, where every displacement between consecutive pointer positions and
every position `(left + xi - x0, top + yi - y0)` along the way has magnitude
at most `2 ^ 53`: the last move changes the position by exactly the pointer's
displacement since the previous event, and the position then is the starting
one plus `(x - x0, y - y0)`. -/
theorem drag_tracks_pointer (d : DragState) (tagName : String) (x0 y0 : Int)
    (ms : List (Int × Int)) (x y : Int)
    (htag : tagName ≠ "INPUT" ∧ tagName ≠ "BUTTON")
    (hstep : ∀ s ∈ List.zip ((x0, y0) :: (ms ++ [(x, y)])) (ms ++ [(x, y)]),
      Exact (s.1.1 - s.2.1) ∧ Exact (s.1.2 - s.2.2))
    (hpos : ∀ m ∈ ms ++ [(x, y)],
      Exact (d.left + (m.1 - x0)) ∧ Exact (d.top + (m.2 - y0))) :
    (dragAll d (.down tagName x0 y0 :: moves (ms ++ [(x, y)]))).left
      = (dragAll d (.down tagName x0 y0 :: moves ms)).left + (x - (ms.getLastD (x0, y0)).1) ∧
    (dragAll d (.down tagName x0 y0 :: moves (ms ++ [(x, y)]))).top
      = (dragAll d (.down tagName x0 y0 :: moves ms)).top + (y - (ms.getLastD (x0, y0)).2) ∧
    (dragAll d (.down tagName x0 y0 :: moves (ms ++ [(x, y)]))).left = d.left + x - x0 ∧
    (dragAll d (.down tagName x0 y0 :: moves (ms ++ [(x, y)]))).top = d.top + y - y0 := by
  have hdown : ∀ ns : List (Int × Int),
      dragAll d (.down tagName x0 y0 :: moves ns)
        = dragAll { d with pos3 := x0, pos4 := y0, onmouseup := true, onmousemove := true }
            (moves ns) := by
    intro ns
    rw [dragAll_cons]
    show dragAll (dragMouseDown tagName x0 y0 d) (moves ns) = _
    rw [dragMouseDown_body tagName x0 y0 d htag]
  obtain ⟨_, _, _, a4, a5⟩ := dragAll_moves_open ms
    { d with pos3 := x0, pos4 := y0, onmouseup := true, onmousemove := true } rfl
    (fun s hs => hstep s (mem_zip_concat (x0, y0) (x, y) ms s hs))
    (fun m hm => hpos m (List.mem_append_left _ hm))
  obtain ⟨_, _, _, b4, b5⟩ := dragAll_moves_open (ms ++ [(x, y)])
    { d with pos3 := x0, pos4 := y0, onmouseup := true, onmousemove := true } rfl
    hstep hpos
  rw [hdown, hdown]
  simp only [List.getLastD_concat] at b4 b5
  dsimp only at a4 a5 b4 b5
  refine ⟨?_, ?_, ?_, ?_⟩
  · rw [b4, a4]; omega
  · rw [b5, a5]; omega
  · rw [b4]; omega
  · rw [b5]; omega

/-- C5 for a widget at (100, 50): down at (10, 10) on a DIV, moves to (12, 11)
and (15, 20) leave it at (105, 60). -/
theorem drag_tracks_pointer_witness :
    ("DIV" ≠ "INPUT" ∧ "DIV" ≠ "BUTTON") ∧
    (∀ s ∈ List.zip (((10, 10) : Int × Int) :: ([(12, 11)] ++ [(15, 20)]))
        ([(12, 11)] ++ [(15, 20)]),
      Exact (s.1.1 - s.2.1) ∧ Exact (s.1.2 - s.2.2)) ∧
    (∀ m ∈ ([(12, 11)] ++ [(15, 20)] : List (Int × Int)),
      Exact ((makeDraggable 100 50).left + (m.1 - 10)) ∧
      Exact ((makeDraggable 100 50).top + (m.2 - 10))) ∧
    (dragAll (makeDraggable 100 50)
      (.down "DIV" 10 10 :: moves ([(12, 11)] ++ [(15, 20)]))).left = 100 + 15 - 10 ∧
    (dragAll (makeDraggable 100 50)
      (.down "DIV" 10 10 :: moves ([(12, 11)] ++ [(15, 20)]))).top = 50 + 20 - 10 :=
  have h := drag_tracks_pointer (makeDraggable 100 50) "DIV" 10 10 [(12, 11)] 15 20
    (by decide) (by decide) (by decide)
  ⟨by decide, by decide, by decide, h.2.2.1, h.2.2.2⟩

/-- C5 as first stated fails: a widget at left 1, pointer-down at (0, 0) on a
DIV and one move to `(2 ^ 53, 0)` leave `left` at 9007199254740992, not at
`1 + 2 ^ 53 - 0`: the double sum has no odd value there. -/
theorem drag_loses_one_beyond_2_pow_53 :
    (dragAll (makeDraggable 1 0)
      (.down "DIV" 0 0 :: moves [(9007199254740992, 0)])).left = 9007199254740992 ∧
    (dragAll (makeDraggable 1 0)
      (.down "DIV" 0 0 :: moves [(9007199254740992, 0)])).left
      ≠ (makeDraggable 1 0).left + 9007199254740992 - 0 := by
  decide

/-- C8: with no drag session open, pointer-down on an INPUT or a BUTTON opens
no session and changes nothing, and any pointer moves that follow leave the
position (and the rest of the drag state) as it was. -/
theorem interactive_target_never_drags (d : DragState) (tagName : String) (x0 y0 : Int)
    (ms : List (Int × Int))
    (htag : tagName = "INPUT" ∨ tagName = "BUTTON") (hno : NoSession d) :
    NoSession (dragDeliver d (.down tagName x0 y0)) ∧
    (dragAll d (.down tagName x0 y0 :: moves ms)).top = d.top ∧
    (dragAll d (.down tagName x0 y0 :: moves ms)).left = d.left ∧
    dragAll d (.down tagName x0 y0 :: moves ms) = d := by
  have hdown : dragDeliver d (.down tagName x0 y0) = d :=
    dragMouseDown_interactive tagName x0 y0 d htag
  have hrun : dragAll d (.down tagName x0 y0 :: moves ms) = d := by
    rw [dragAll_cons, hdown, dragAll_moves_closed ms d hno.1]
  rw [hdown, hrun]
  exact ⟨hno, rfl, rfl, rfl⟩

/-- C8 for a widget at (100, 50): down on the INPUT at (10, 10), moves to
(12, 11) and (15, 20) leave it at (100, 50). -/
theorem interactive_target_never_drags_witness :
    ("INPUT" = "INPUT" ∨ "INPUT" = "BUTTON") ∧ NoSession (makeDraggable 100 50) ∧
    (dragAll (makeDraggable 100 50)
      (.down "INPUT" 10 10 :: moves [(12, 11), (15, 20)])).top = 50 ∧
    (dragAll (makeDraggable 100 50)
      (.down "INPUT" 10 10 :: moves [(12, 11), (15, 20)])).left = 100 :=
  have h := interactive_target_never_drags (makeDraggable 100 50) "INPUT" 10 10
    [(12, 11), (15, 20)] (by decide) (by decide)
  ⟨by decide, by decide, h.2.1, h.2.2.1⟩

end ClockExt
